import Mathlib

/-!
Shallow embedding of the KilogBackend core (workout aggregate persistence,
ownership policy, analytics) from `app/services/*.py`, `app/models/*.py` and
`app/schemas/*.py`.

Conventions of the embedding:
* The relational store is a `DB` value: one list of rows per table plus a
  fresh-id counter (primary keys are allocated sequentially, mirroring the
  serial columns).
* Each service function is a pure function from the committed store to a pair
  `(committed store after the call, Except Exc result)`.  The session is
  opened per request (`get_db`) with `autocommit=False, autoflush=False`, so
  uncommitted in-memory changes are discarded when the session closes; a call
  that never reaches `db.commit()` therefore leaves the committed store
  unchanged, and a call that commits replaces it with the pending state.
* Python `float` weights are modelled as `Rat`; SQL `Date`/`DateTime` values
  as `Int` (days); the wall clock (`datetime.now().date()`) becomes an
  explicit `today : Int` argument.
* Application exceptions (`app/core/exceptions.py`) become the `Exc` type,
  carrying their constructor arguments.
-/

namespace Kilog

/-- The `Role` enum from `app/models/user.py`. -/
inductive Role where
  | user
  | admin
deriving DecidableEq, Repr

/-- The `users` table row (`app/models/user.py`). -/
structure UserRow where
  id : Nat
  email : String
  username : Option String
  role : Role
  auth_id : String
  last_login_at : Option Int
deriving DecidableEq, Repr

/-- The `exercises` table row (`app/models/exercise.py`); `user_id = none` marks a
global system exercise. -/
structure ExerciseRow where
  id : Nat
  name : String
  category : Option String
  user_id : Option Nat
deriving DecidableEq, Repr

/-- The `workouts` table row (`app/models/workout.py`). -/
structure WorkoutRow where
  id : Nat
  user_id : Nat
  date : Int
  notes : Option String
deriving DecidableEq, Repr

/-- The `workout_exercises` table row (`app/models/workout_exercise.py`). -/
structure WorkoutExerciseRow where
  id : Nat
  workout_id : Nat
  exercise_id : Nat
deriving DecidableEq, Repr

/-- The `sets` table row (`app/models/set.py`). -/
structure SetRow where
  id : Nat
  workout_exercise_id : Nat
  set_order : Nat
  weight : Rat
  reps : Nat
  rpe : Option Rat
deriving DecidableEq, Repr

/-- The committed relational store. -/
structure DB where
  users : List UserRow
  exercises : List ExerciseRow
  workouts : List WorkoutRow
  workout_exercises : List WorkoutExerciseRow
  sets : List SetRow
  nextId : Nat
deriving DecidableEq, Repr

/-- Application exceptions (`app/core/exceptions.py`), with their
constructor arguments. -/
inductive Exc where
  | exerciseNotFound (id : Nat)
  | workoutNotFound (id : Nat)
  | userNotFound (id : Nat)
  | permissionDenied (resource : String) (user_id : Nat)
  | userAlreadyExists (identifier : String)
  | emptyWorkout
  | invalidMetric (detail : String)
  | databaseSystem (msg : String)
deriving DecidableEq, Repr

/-! ### Schemas (`app/schemas/*.py`) -/

/-- The `SetCreate` schema (`app/schemas/set_schema.py`). -/
structure SetCreate where
  weight : Rat
  reps : Nat
  rpe : Option Rat
  set_order : Nat
deriving DecidableEq, Repr

/-- The `WorkoutExerciseCreate` schema (`app/schemas/workout_schema.py`). -/
structure WorkoutExerciseCreate where
  exercise_id : Nat
  sets : List SetCreate
deriving DecidableEq, Repr

/-- The `WorkoutCreate` schema (`app/schemas/workout_schema.py`). -/
structure WorkoutCreate where
  date : Int
  notes : Option String
  exercises : List WorkoutExerciseCreate
deriving DecidableEq, Repr

/-- Modelled from the spec: the `WorkoutUpdate` schema is imported by
`workout_service.py` and the tests but is missing from
`app/schemas/workout_schema.py`; per spec 4.3 `replace` it carries the scalar
fields (date, notes) and the replacement exercise list, like `WorkoutCreate`. -/
structure WorkoutUpdate where
  date : Int
  notes : Option String
  exercises : List WorkoutExerciseCreate
deriving DecidableEq, Repr

/-- The `ExerciseBase` patch applied by `update_exercise`
(`model_dump(exclude_unset=True)`: each field optionally present). -/
structure ExercisePatch where
  name : Option String
  category : Option (Option String)
deriving DecidableEq, Repr

/-- The `UserCreate` schema (`app/schemas/user_schema.py`). -/
structure UserCreate where
  email : String
  username : String
  auth_id : String
deriving DecidableEq, Repr

/-! ### Exercise catalog service (`app/services/exercise_service.py`) -/

/-- Embedding of `get_exercise_by_id`: fetch by id; `ExerciseNotFoundException` if absent,
and also (existence masking) if the exercise is private to another user. -/
def get_exercise_by_id (db : DB) (exercise_id user_id : Nat) :
    Except Exc ExerciseRow :=
  match db.exercises.find? (fun e => e.id == exercise_id) with
  | none => .error (.exerciseNotFound exercise_id)
  | some exercise =>
    match exercise.user_id with
    | none => .ok exercise
    | some owner =>
      if owner == user_id then .ok exercise
      else .error (.exerciseNotFound exercise_id)

/-- Apply an `ExerciseBase` patch: only the fields present are assigned
(`for key, value in exercise_in.model_dump(exclude_unset=True)`). -/
def applyExercisePatch (e : ExerciseRow) (p : ExercisePatch) : ExerciseRow :=
  { e with
    name := p.name.getD e.name
    category := p.category.getD e.category }

/-- Embedding of `update_exercise`: NotFound if absent; PermissionDenied for a global
exercise ("System Exercises") or another user\x27s exercise; otherwise apply
the patch and commit. -/
def update_exercise (db : DB) (exercise_id : Nat) (p : ExercisePatch)
    (user_id : Nat) : DB × Except Exc ExerciseRow :=
  match db.exercises.find? (fun e => e.id == exercise_id) with
  | none => (db, .error (.exerciseNotFound exercise_id))
  | some exercise =>
    match exercise.user_id with
    | none => (db, .error (.permissionDenied "System Exercises" user_id))
    | some owner =>
      if owner != user_id then
        (db, .error (.permissionDenied "Other User\x27s Exercise" user_id))
      else
        let e2 := applyExercisePatch exercise p
        ({ db with
            exercises :=
              db.exercises.map (fun e => if e.id == exercise_id then e2 else e) },
          .ok e2)

/-- Embedding of `delete_exercise`: same ownership checks as `update_exercise`; on success
removes the row and commits. -/
def delete_exercise (db : DB) (exercise_id user_id : Nat) :
    DB × Except Exc Unit :=
  match db.exercises.find? (fun e => e.id == exercise_id) with
  | none => (db, .error (.exerciseNotFound exercise_id))
  | some exercise =>
    match exercise.user_id with
    | none => (db, .error (.permissionDenied "System Exercises" user_id))
    | some owner =>
      if owner != user_id then
        (db, .error (.permissionDenied "Other User\x27s Exercise" user_id))
      else
        ({ db with
            exercises := db.exercises.filter (fun e => e.id != exercise_id) },
          .ok ())

/-! ### Workout aggregate service (`app/services/workout_service.py`) -/

/-- Embedding of `get_workout_by_id`: `WorkoutNotFoundException` if absent;
`PermissionDeniedException("Workout belongs to another user", user_id)` if the
workout is owned by a different user (not masked). -/
def get_workout_by_id (db : DB) (workout_id user_id : Nat) :
    Except Exc WorkoutRow :=
  match db.workouts.find? (fun w => w.id == workout_id) with
  | none => .error (.workoutNotFound workout_id)
  | some workout =>
    if workout.user_id != user_id then
      .error (.permissionDenied "Workout belongs to another user" user_id)
    else
      .ok workout

/-- Insert the `Set` rows of one exercise instance, in input order
(`for set_data in ex_data.sets: db.add(Set(...))`). -/
def insertSets (we_id : Nat) (sets : List SetCreate) (pending : DB) : DB :=
  match sets with
  | [] => pending
  | s :: rest =>
    insertSets we_id rest
      { pending with
        sets := pending.sets ++
          [{ id := pending.nextId
             workout_exercise_id := we_id
             set_order := s.set_order
             weight := s.weight
             reps := s.reps
             rpe := s.rpe }]
        nextId := pending.nextId + 1 }

/-- The per-exercise rebuild loop shared by `create_workout` and
`update_workout`: for each requested exercise instance in input order, run the
`get_exercise_by_id` legality check against the store (`db`; the pending
changes never touch the `exercises` table and are not flushed), re-raising
`ExerciseNotFoundException(ex_data.exercise_id)` on denial, then insert the
`WorkoutExercise` row and its `Set` rows into the pending state. -/
def buildExercises (db : DB) (user_id workout_id : Nat) :
    List WorkoutExerciseCreate → DB → Except Exc DB
  | [], pending => .ok pending
  | ex :: rest, pending =>
    match get_exercise_by_id db ex.exercise_id user_id with
    | .error _ => .error (.exerciseNotFound ex.exercise_id)
    | .ok _ =>
      let we : WorkoutExerciseRow :=
        { id := pending.nextId
          workout_id := workout_id
          exercise_id := ex.exercise_id }
      let p1 :=
        { pending with
          workout_exercises := pending.workout_exercises ++ [we]
          nextId := pending.nextId + 1 }
      buildExercises db user_id workout_id rest (insertSets we.id ex.sets p1)

/-- Embedding of `create_workout`: insert the `Workout` row (flush allocates its id), build
the child rows per `buildExercises`, then commit; on
`ExerciseNotFoundException` roll back the whole unit of work and re-raise. -/
def create_workout (db : DB) (workout_in : WorkoutCreate) (user_id : Nat) :
    DB × Except Exc Nat :=
  let wk : WorkoutRow :=
    { id := db.nextId
      user_id := user_id
      date := workout_in.date
      notes := workout_in.notes }
  let p0 :=
    { db with
      workouts := db.workouts ++ [wk]
      nextId := db.nextId + 1 }
  match buildExercises db user_id wk.id workout_in.exercises p0 with
  | .ok pending => (pending, .ok wk.id)
  | .error e => (db, .error e)

/-- Delete a workout\x27s `WorkoutExercise` rows and their `Set` rows
(the `cascade="all, delete-orphan"` effect of `db_workout.exercises.clear()`
and of deleting a workout). -/
def clearWorkoutSubtree (workout_id : Nat) (pending : DB) : DB :=
  let weIds :=
    (pending.workout_exercises.filter (fun we => we.workout_id == workout_id)).map
      (fun we => we.id)
  { pending with
    workout_exercises :=
      pending.workout_exercises.filter (fun we => we.workout_id != workout_id)
    sets :=
      pending.sets.filter (fun s => !(weIds.contains s.workout_exercise_id)) }

/-- Embedding of `update_workout`: fetch + authorize via `get_workout_by_id`; then update
the scalar fields, clear the existing subtree and rebuild it from the input —
all as uncommitted session state — and commit.  An
`ExerciseNotFoundException` raised mid-rebuild propagates without reaching
`db.commit()` (the function has no handler for it), so with
`autoflush=False` the committed store is left unchanged when the
request-scoped session closes; a `SQLAlchemyError` is rolled back
explicitly. -/
def update_workout (db : DB) (workout_id : Nat) (workout_in : WorkoutUpdate)
    (user_id : Nat) : DB × Except Exc Nat :=
  match get_workout_by_id db workout_id user_id with
  | .error e => (db, .error e)
  | .ok _ =>
    let p0 :=
      { db with
        workouts :=
          db.workouts.map (fun w =>
            if w.id == workout_id then
              { w with date := workout_in.date, notes := workout_in.notes }
            else w) }
    let p1 := clearWorkoutSubtree workout_id p0
    match buildExercises db user_id workout_id workout_in.exercises p1 with
    | .ok pending => (pending, .ok workout_id)
    | .error e => (db, .error e)

/-- Embedding of `delete_workout`: fetch + authorize via `get_workout_by_id`; delete the
workout and cascade-delete all descendants, then commit. -/
def delete_workout (db : DB) (workout_id user_id : Nat) :
    DB × Except Exc Unit :=
  match get_workout_by_id db workout_id user_id with
  | .error e => (db, .error e)
  | .ok _ =>
    let p := clearWorkoutSubtree workout_id db
    ({ p with workouts := p.workouts.filter (fun w => w.id != workout_id) },
      .ok ())

/-! ### Analytics engine (`app/services/analytics_service.py`) -/

/-- SQL `MAX` aggregate over a list of weights (`NULL`, i.e. `none`, on an
empty group). -/
def maxWeight : List Rat → Option Rat
  | [] => none
  | x :: xs =>
    match maxWeight xs with
    | none => some x
    | some m => some (if x ≤ m then m else x)

/-- Does `Set` row `s` join (through its `WorkoutExercise`) to workout `w`
for exercise `exercise_id`?  Follows the join
`Set.workout_exercise_id = WorkoutExercise.id` with
`WorkoutExercise.workout_id = Workout.id` and
`WorkoutExercise.exercise_id = exercise_id`. -/
def setInSession (db : DB) (exercise_id : Nat) (w : WorkoutRow) (s : SetRow) :
    Bool :=
  match db.workout_exercises.find? (fun we => we.id == s.workout_exercise_id) with
  | none => false
  | some we => we.workout_id == w.id && we.exercise_id == exercise_id

/-- The `WHERE` clause of the personal-best query: `Set` row `s` joins
(through its `WorkoutExercise` and that row\x27s `Workout`) to the given
exercise and user. -/
def pbFilter (db : DB) (user_id exercise_id : Nat) (s : SetRow) : Bool :=
  match db.workout_exercises.find? (fun we => we.id == s.workout_exercise_id) with
  | none => false
  | some we =>
    we.exercise_id == exercise_id &&
      (match db.workouts.find? (fun w => w.id == we.workout_id) with
       | none => false
       | some w => w.user_id == user_id)

/-- Embedding of `get_personal_best`: maximum `weight` over the join
`Set → WorkoutExercise → Workout` restricted to `Workout.user_id = user_id`
and `WorkoutExercise.exercise_id = exercise_id`; `none` when no history
exists. -/
def get_personal_best (db : DB) (user_id exercise_id : Nat) : Option Rat :=
  maxWeight ((db.sets.filter (pbFilter db user_id exercise_id)).map
    (fun s => s.weight))

/-- One `GROUP BY (Workout.id, Workout.date)` row of the progress query: the
session\x27s max weight for the exercise, or `none` when the inner join
contributes no `Set` row for this workout. -/
def sessionMax (db : DB) (exercise_id : Nat) (w : WorkoutRow) : Option Rat :=
  maxWeight ((db.sets.filter (setInSession db exercise_id w)).map
    (fun s => s.weight))

/-- The `ORDER BY Workout.date ASC` comparison on the grouped rows. -/
def dateLe (a b : Int × Rat) : Prop := a.1 ≤ b.1

instance : DecidableRel dateLe := fun a b => Int.decLe a.1 b.1

/-- The full grouped-and-ordered result set of the progress query, before
`LIMIT`: one `(date, max weight)` row per workout of the user containing the
exercise, ordered by date ascending. -/
def progressRows (db : DB) (user_id exercise_id : Nat) : List (Int × Rat) :=
  List.insertionSort dateLe
    (db.workouts.filterMap (fun w =>
      if w.user_id == user_id then
        (sessionMax db exercise_id w).map (fun m => (w.date, m))
      else none))

/-- Embedding of `get_exercise_progress`: the grouped rows ordered by date ascending, then
`LIMIT limit` (i.e. the first `limit` rows of the ascending order). -/
def get_exercise_progress (db : DB) (user_id exercise_id : Nat)
    (limit : Nat := 10) : List (Int × Rat) :=
  (progressRows db user_id exercise_id).take limit

/-- Embedding of `get_weekly_consistency`: count of the user\x27s workouts with
`date >= today - 7`; the wall clock is the explicit `today` argument. -/
def get_weekly_consistency (db : DB) (today : Int) (user_id : Nat) : Nat :=
  (db.workouts.filter (fun w =>
    w.user_id == user_id && decide (today - 7 ≤ w.date))).length

/-! ### User service (`app/services/user_service.py`) -/

/-- Embedding of `create_user`: insert the new row and commit; an `IntegrityError` from a
unique constraint is rolled back and translated (by substring match on the
driver message) to `UserAlreadyExistsException` naming the Auth ID, the
Email, or the generic fallback. -/
def create_user (db : DB) (user_in : UserCreate) : DB × Except Exc UserRow :=
  let newUser : UserRow :=
    { id := db.nextId
      email := user_in.email
      username := some user_in.username
      role := Role.user
      auth_id := user_in.auth_id
      last_login_at := none }
  if db.users.any (fun u => u.auth_id == user_in.auth_id) then
    (db, .error (.userAlreadyExists ("Auth ID " ++ user_in.auth_id)))
  else if db.users.any (fun u => u.email == user_in.email) then
    (db, .error (.userAlreadyExists ("Email " ++ user_in.email)))
  else if db.users.any (fun u => u.username == some user_in.username) then
    (db, .error (.userAlreadyExists "User constraint violation"))
  else
    ({ db with
        users := db.users ++ [newUser]
        nextId := db.nextId + 1 },
      .ok newUser)

/-- A value assignable by `setattr` in `update_user`. -/
inductive FieldVal where
  | str (s : String)
  | optStr (s : Option String)
  | nat (n : Nat)
  | role (r : Role)
  | time (t : Option Int)
deriving DecidableEq, Repr

/-- The `setattr(user, key, value)` for the `User` columns; a key/value pair that
does not name a column of the matching type leaves the row unchanged (in
Python it would set a non-column attribute on the instance). -/
def setUserField (u : UserRow) (key : String) (v : FieldVal) : UserRow :=
  match key, v with
  | "id", .nat n => { u with id := n }
  | "email", .str s => { u with email := s }
  | "username", .optStr s => { u with username := s }
  | "username", .str s => { u with username := some s }
  | "role", .role r => { u with role := r }
  | "auth_id", .str s => { u with auth_id := s }
  | "last_login_at", .time t => { u with last_login_at := t }
  | _, _ => u

/-- The update loop of `update_user`: apply each `(key, value)` item of
`user_in.model_dump(exclude_unset=True)` in order, skipping the protected
keys (`if key not in ["id", "auth_id", "role", "email"]`). -/
def applyUserUpdates (u : UserRow) : List (String × FieldVal) → UserRow
  | [] => u
  | (key, v) :: rest =>
    if key == "id" || key == "auth_id" || key == "role" || key == "email" then
      applyUserUpdates u rest
    else
      applyUserUpdates (setUserField u key v) rest

/-- Embedding of `update_user`: fetch by id (`UserNotFoundException` if absent), apply the
patch items with the protected-key guard, and commit (a username uniqueness
violation at commit is rolled back as `UserAlreadyExistsException`). -/
def update_user (db : DB) (user_id : Nat) (items : List (String × FieldVal)) :
    DB × Except Exc UserRow :=
  match db.users.find? (fun u => u.id == user_id) with
  | none => (db, .error (.userNotFound user_id))
  | some user =>
    if db.users.any (fun x =>
        x.id != user_id &&
          x.username == (applyUserUpdates user items).username &&
          (applyUserUpdates user items).username != none) then
      (db, .error (.userAlreadyExists "Username in use"))
    else
      ({ db with
          users := db.users.map (fun x =>
            if x.id == user_id then applyUserUpdates user items else x) },
        .ok (applyUserUpdates user items))

/-! ### Example data for witnesses and counterexamples -/

/-- A user. -/
def u1 : UserRow :=
  { id := 1, email := "a@x", username := some "a", role := .user,
    auth_id := "auth1", last_login_at := none }

/-- Another user. -/
def u2 : UserRow :=
  { id := 2, email := "b@x", username := some "b", role := .user,
    auth_id := "auth2", last_login_at := none }

/-- A global (system) exercise. -/
def exBench : ExerciseRow :=
  { id := 10, name := "Bench Press", category := some "Push", user_id := none }

/-- An exercise privately owned by user 2. -/
def exPrivate2 : ExerciseRow :=
  { id := 11, name := "Secret Curl", category := none, user_id := some 2 }

/-- A store with two users, a global and a private exercise, and one
workout (id 20, owned by user 1) with one exercise instance and one set. -/
def exDB : DB :=
  { users := [u1, u2]
    exercises := [exBench, exPrivate2]
    workouts := [{ id := 20, user_id := 1, date := 3, notes := some "leg day" }]
    workout_exercises := [{ id := 21, workout_id := 20, exercise_id := 10 }]
    sets := [{ id := 22, workout_exercise_id := 21, set_order := 1,
               weight := 100, reps := 5, rpe := some 8 }]
    nextId := 23 }

/-- A replacement that fails partway through the rebuild: the first exercise
instance (global exercise 10) is legal, the second references user 2\x27s
private exercise 11, so its legality check raises
`ExerciseNotFoundException(11)` after the first instance was already
processed. -/
def badUpdate : WorkoutUpdate :=
  { date := 7, notes := some "new",
    exercises := [⟨10, [⟨60, 10, none, 1⟩]⟩, ⟨11, []⟩] }

/-- A creation payload that fails partway for the same reason as
`badUpdate`. -/
def badCreate : WorkoutCreate :=
  { date := 5, notes := none,
    exercises := [⟨10, [⟨60, 10, none, 1⟩]⟩, ⟨11, []⟩] }

/-- The spec\x27s 4-rows example: one workout with one exercise instance
containing two sets. -/
def goodCreate : WorkoutCreate :=
  { date := 5, notes := none,
    exercises := [⟨10, [⟨60, 10, none, 1⟩, ⟨80, 3, some 9, 2⟩]⟩] }

/-! ### Claims -/

/-- C4: The two read paths are deliberately asymmetric: exercise
`get_exercise_by_id` fails with NotFound both when the exercise is absent and
when it is privately owned by a different user (ownership denial masked as
NotFound, never PermissionDenied), whereas `get_workout_by_id` fails with
NotFound only when the workout is absent, and with PermissionDenied (not
masked) when it exists but is owned by a different user. -/
theorem C4_read_path_asymmetry (db : DB) (eid wid a : Nat) :
    (db.exercises.find? (fun e => e.id == eid) = none →
      get_exercise_by_id db eid a = .error (.exerciseNotFound eid)) ∧
    (∀ e, db.exercises.find? (fun x => x.id == eid) = some e →
      ∀ o, e.user_id = some o → o ≠ a →
        get_exercise_by_id db eid a = .error (.exerciseNotFound eid)) ∧
    (db.workouts.find? (fun w => w.id == wid) = none →
      get_workout_by_id db wid a = .error (.workoutNotFound wid)) ∧
    (∀ w, db.workouts.find? (fun x => x.id == wid) = some w → w.user_id ≠ a →
      get_workout_by_id db wid a =
        .error (.permissionDenied "Workout belongs to another user" a)) := by
  refine ⟨fun h => ?_, fun e he o ho hne => ?_, fun h => ?_, fun w hw hne => ?_⟩
  · simp [get_exercise_by_id, h]
  · simp [get_exercise_by_id, he, ho, hne]
  · simp [get_workout_by_id, h]
  · simp only [get_workout_by_id, hw]
    simp [hne]

/-- Witness for C4 on `exDB`: user 1 probing user 2\x27s private exercise 11
gets NotFound; a missing exercise gets NotFound; user 2 reading user 1\x27s
workout 20 gets PermissionDenied; a missing workout gets NotFound. -/
theorem C4_read_path_asymmetry_witness :
    get_exercise_by_id exDB 11 1 = .error (.exerciseNotFound 11) ∧
    get_exercise_by_id exDB 99 1 = .error (.exerciseNotFound 99) ∧
    get_workout_by_id exDB 20 2 =
      .error (.permissionDenied "Workout belongs to another user" 2) ∧
    get_workout_by_id exDB 99 2 = .error (.workoutNotFound 99) :=
  ⟨(C4_read_path_asymmetry exDB 11 20 1).2.1 exPrivate2 (by decide) 2 rfl
      (by decide),
    (C4_read_path_asymmetry exDB 99 20 1).1 (by decide),
    (C4_read_path_asymmetry exDB 11 20 2).2.2.2
      { id := 20, user_id := 1, date := 3, notes := some "leg day" }
      (by decide) (by decide),
    (C4_read_path_asymmetry exDB 11 99 2).2.2.1 (by decide)⟩

/-- C5: `update_exercise` and `delete_exercise` fail with NotFound when
the exercise is absent, and with PermissionDenied — with distinct reasons for
a global exercise ("System Exercises") versus another user\x27s exercise
("Other User\x27s Exercise") — whenever the actor does not own it; in every
failing case the store (hence the exercise) is unmodified, so global
exercises are never mutated or deleted through this path by any actor. -/
theorem C5_exercise_write_guards (db : DB) (eid a : Nat) (p : ExercisePatch) :
    (db.exercises.find? (fun e => e.id == eid) = none →
      update_exercise db eid p a = (db, .error (.exerciseNotFound eid)) ∧
      delete_exercise db eid a = (db, .error (.exerciseNotFound eid))) ∧
    (∀ e, db.exercises.find? (fun x => x.id == eid) = some e →
      (e.user_id = none →
        update_exercise db eid p a =
          (db, .error (.permissionDenied "System Exercises" a)) ∧
        delete_exercise db eid a =
          (db, .error (.permissionDenied "System Exercises" a))) ∧
      (∀ o, e.user_id = some o → o ≠ a →
        update_exercise db eid p a =
          (db, .error (.permissionDenied "Other User\x27s Exercise" a)) ∧
        delete_exercise db eid a =
          (db, .error (.permissionDenied "Other User\x27s Exercise" a)))) ∧
    Exc.permissionDenied "System Exercises" a ≠
      Exc.permissionDenied "Other User\x27s Exercise" a := by
  refine ⟨fun h => ?_, fun e he => ⟨fun hn => ?_, fun o ho hne => ?_⟩, by simp⟩
  · exact ⟨by simp [update_exercise, h], by simp [delete_exercise, h]⟩
  · exact ⟨by simp [update_exercise, he, hn], by simp [delete_exercise, he, hn]⟩
  · constructor
    · simp only [update_exercise, he, ho]
      simp [hne]
    · simp only [delete_exercise, he, ho]
      simp [hne]

/-- Witness for C5 on `exDB`: any actor (here user 1) is denied on the global
exercise 10 with the "System Exercises" reason, user 1 is denied on user
2\x27s exercise 11 with the distinct "Other User\x27s Exercise" reason, and a
missing exercise yields NotFound — the store untouched each time. -/
theorem C5_exercise_write_guards_witness :
    update_exercise exDB 10 ⟨some "hack", none⟩ 1 =
      (exDB, .error (.permissionDenied "System Exercises" 1)) ∧
    delete_exercise exDB 10 1 =
      (exDB, .error (.permissionDenied "System Exercises" 1)) ∧
    update_exercise exDB 11 ⟨some "hack", none⟩ 1 =
      (exDB, .error (.permissionDenied "Other User\x27s Exercise" 1)) ∧
    delete_exercise exDB 99 1 = (exDB, .error (.exerciseNotFound 99)) :=
  ⟨((C5_exercise_write_guards exDB 10 1 ⟨some "hack", none⟩).2.1 exBench
      (by decide)).1 rfl |>.1,
    ((C5_exercise_write_guards exDB 10 1 ⟨some "hack", none⟩).2.1 exBench
      (by decide)).1 rfl |>.2,
    ((C5_exercise_write_guards exDB 11 1 ⟨some "hack", none⟩).2.1 exPrivate2
      (by decide)).2 2 rfl (by decide) |>.1,
    ((C5_exercise_write_guards exDB 99 1 ⟨some "hack", none⟩).1 (by decide)).2⟩

/-- C1: `update_workout` is atomic: whenever it fails — including an
exercise-legality check failing with NotFound partway through the rebuild —
the committed store is exactly the input store, so the workout\x27s original
scalar fields (date, notes) and its entire original WorkoutExercise/Set
subtree are preserved and no partially-replaced state is ever observable. -/
theorem C1_update_workout_atomic (db : DB) (workout_id : Nat)
    (workout_in : WorkoutUpdate) (user_id : Nat) (e : Exc)
    (h : (update_workout db workout_id workout_in user_id).2 = .error e) :
    (update_workout db workout_id workout_in user_id).1 = db := by
  unfold update_workout at h ⊢
  cases hg : get_workout_by_id db workout_id user_id with
  | error e2 => simp [hg]
  | ok wk =>
    simp only [hg] at h ⊢
    cases hb : buildExercises db user_id workout_id workout_in.exercises
        (clearWorkoutSubtree workout_id
          { db with
            workouts :=
              db.workouts.map (fun w =>
                if w.id == workout_id then
                  { w with date := workout_in.date, notes := workout_in.notes }
                else w) }) with
    | error e2 => simp [hb]
    | ok pending =>
      simp only [hb] at h
      exact absurd h (by simp)

/-- Witness for C1 on `exDB`: replacing workout 20 with `badUpdate` fails
with NotFound on the second rebuilt exercise instance (user 2\x27s private
exercise 11), after the first instance was already processed, and the
committed store is unchanged. -/
theorem C1_update_workout_atomic_witness :
    (update_workout exDB 20 badUpdate 1).2 = .error (.exerciseNotFound 11) ∧
    (update_workout exDB 20 badUpdate 1).1 = exDB :=
  ⟨rfl, C1_update_workout_atomic exDB 20 badUpdate 1
      (.exerciseNotFound 11) rfl⟩



/-- The `get_exercise_by_id` fails only as `ExerciseNotFoundException` for the
requested id. -/
lemma get_exercise_by_id_error_shape (db : DB) (eid uid : Nat) (e : Exc)
    (h : get_exercise_by_id db eid uid = .error e) :
    e = .exerciseNotFound eid := by
  unfold get_exercise_by_id at h
  split at h
  · injection h with h2; exact h2.symm
  · split at h
    · cases h
    · split at h
      · cases h
      · injection h with h2; exact h2.symm

/-- A failing rebuild loop raises exactly the NotFound of some requested
exercise id whose legality check failed. -/
lemma buildExercises_error_shape (db : DB) (uid wid : Nat)
    (exs : List WorkoutExerciseCreate) :
    ∀ (pending : DB) (e : Exc),
      buildExercises db uid wid exs pending = .error e →
      ∃ i, e = .exerciseNotFound i ∧
        get_exercise_by_id db i uid = .error (.exerciseNotFound i) ∧
        i ∈ exs.map (fun ex => ex.exercise_id) := by
  induction exs with
  | nil => intro pending e h; simp [buildExercises] at h
  | cons ex rest ih =>
    intro pending e h
    rw [buildExercises] at h
    cases hg : get_exercise_by_id db ex.exercise_id uid with
    | error e2 =>
      simp only [hg] at h
      injection h with h2
      refine ⟨ex.exercise_id, h2.symm, ?_, by simp⟩
      rw [get_exercise_by_id_error_shape db ex.exercise_id uid e2 hg] at hg
      exact hg
    | ok exr =>
      simp only [hg] at h
      obtain ⟨i, h1, h2, h3⟩ := ih _ _ h
      exact ⟨i, h1, h2, by simp [h3]⟩

/-- The `create_workout` on failure: rolled back to the input store, and the
error is the originating NotFound. -/
lemma create_workout_error (db : DB) (w : WorkoutCreate) (uid : Nat) (e : Exc)
    (h : (create_workout db w uid).2 = .error e) :
    (create_workout db w uid).1 = db ∧
    ∃ i, e = .exerciseNotFound i ∧
      get_exercise_by_id db i uid = .error (.exerciseNotFound i) ∧
      i ∈ w.exercises.map (fun ex => ex.exercise_id) := by
  unfold create_workout at h ⊢
  cases hb : buildExercises db uid db.nextId w.exercises
      { db with
        workouts := db.workouts ++
          [{ id := db.nextId, user_id := uid, date := w.date, notes := w.notes }]
        nextId := db.nextId + 1 } with
  | ok p =>
    simp only [hb] at h
    cases h
  | error e2 =>
    simp only [hb] at h
    injection h with h2
    subst h2
    exact ⟨by simp [hb], buildExercises_error_shape db uid db.nextId w.exercises _ _ hb⟩



/-- The `insertSets` appends exactly one `Set` row per requested set, in input
order, all linked to `we_id`, and touches no other table. -/
lemma insertSets_shape (we_id : Nat) (sets : List SetCreate) :
    ∀ pending : DB,
      (insertSets we_id sets pending).users = pending.users ∧
      (insertSets we_id sets pending).exercises = pending.exercises ∧
      (insertSets we_id sets pending).workouts = pending.workouts ∧
      (insertSets we_id sets pending).workout_exercises =
        pending.workout_exercises ∧
      ∃ L, (insertSets we_id sets pending).sets = pending.sets ++ L ∧
        L.map (fun s => (s.weight, s.reps, s.rpe, s.set_order)) =
          sets.map (fun s => (s.weight, s.reps, s.rpe, s.set_order)) ∧
        ∀ s ∈ L, s.workout_exercise_id = we_id := by
  induction sets with
  | nil =>
    intro pending
    exact ⟨rfl, rfl, rfl, rfl, [], by simp [insertSets], by simp, by simp⟩
  | cons s rest ih =>
    intro pending
    rw [insertSets]
    obtain ⟨h1, h2, h3, h4, L, h5, h6, h7⟩ := ih
      { pending with
        sets := pending.sets ++
          [{ id := pending.nextId, workout_exercise_id := we_id,
             set_order := s.set_order, weight := s.weight, reps := s.reps,
             rpe := s.rpe }]
        nextId := pending.nextId + 1 }
    refine ⟨h1, h2, h3, h4,
      { id := pending.nextId, workout_exercise_id := we_id,
        set_order := s.set_order, weight := s.weight, reps := s.reps,
        rpe := s.rpe } :: L, ?_, ?_, ?_⟩
    · simpa using h5
    · simpa using h6
    · intro x hx
      rcases List.mem_cons.mp hx with rfl | hx2
      · rfl
      · exact h7 x hx2

/-- A successful rebuild loop appends exactly one `WorkoutExercise` row per
requested exercise instance (in input order, all linked to `wid`) and one
`Set` row per requested set (in input order), touching no other table. -/
lemma buildExercises_ok_shape (db : DB) (uid wid : Nat)
    (exs : List WorkoutExerciseCreate) :
    ∀ (pending p : DB),
      buildExercises db uid wid exs pending = .ok p →
      p.users = pending.users ∧
      p.exercises = pending.exercises ∧
      p.workouts = pending.workouts ∧
      (∃ W, p.workout_exercises = pending.workout_exercises ++ W ∧
        W.map (fun we => we.exercise_id) =
          exs.map (fun ex => ex.exercise_id) ∧
        ∀ we ∈ W, we.workout_id = wid) ∧
      (∃ S, p.sets = pending.sets ++ S ∧
        S.map (fun s => (s.weight, s.reps, s.rpe, s.set_order)) =
          (exs.flatMap (fun ex => ex.sets)).map
            (fun s => (s.weight, s.reps, s.rpe, s.set_order))) := by
  induction exs with
  | nil =>
    intro pending p h
    obtain rfl : pending = p := by simpa [buildExercises] using h
    exact ⟨rfl, rfl, rfl, ⟨[], by simp, by simp, by simp⟩, ⟨[], by simp, by simp⟩⟩
  | cons ex rest ih =>
    intro pending p h
    rw [buildExercises] at h
    cases hg : get_exercise_by_id db ex.exercise_id uid with
    | error e => simp only [hg] at h; simp at h
    | ok exr =>
      simp only [hg] at h
      obtain ⟨h1, h2, h3, ⟨W, hW, hWm, hWw⟩, S, hS, hSm⟩ := ih _ _ h
      obtain ⟨i1, i2, i3, i4, L, l5, l6, l7⟩ :=
        insertSets_shape pending.nextId ex.sets
          { pending with
            workout_exercises := pending.workout_exercises ++
              [{ id := pending.nextId, workout_id := wid,
                 exercise_id := ex.exercise_id }]
            nextId := pending.nextId + 1 }
    
      refine ⟨by rw [h1, i1], by rw [h2, i2], by rw [h3, i3],
        ⟨{ id := pending.nextId, workout_id := wid,
           exercise_id := ex.exercise_id } :: W, ?_, ?_, ?_⟩,
        ⟨L ++ S, ?_, ?_⟩⟩
      · rw [hW, i4]; simp
      · simpa using hWm
      · intro we hwe
        rcases List.mem_cons.mp hwe with rfl | hwe2
        · rfl
        · exact hWw we hwe2
      · rw [hS, l5]; simp
      · simp [l6, hSm]



/-- The `create_workout` on success: one new `Workout` row plus exactly the
requested children. -/
lemma create_workout_ok (db : DB) (w : WorkoutCreate) (uid : Nat)
    (db2 : DB) (wid : Nat) (h : create_workout db w uid = (db2, .ok wid)) :
    wid = db.nextId ∧
    db2.users = db.users ∧
    db2.exercises = db.exercises ∧
    db2.workouts = db.workouts ++
      [{ id := wid, user_id := uid, date := w.date, notes := w.notes }] ∧
    (∃ W, db2.workout_exercises = db.workout_exercises ++ W ∧
      W.map (fun we => we.exercise_id) =
        w.exercises.map (fun ex => ex.exercise_id) ∧
      ∀ we ∈ W, we.workout_id = wid) ∧
    (∃ S, db2.sets = db.sets ++ S ∧
      S.map (fun s => (s.weight, s.reps, s.rpe, s.set_order)) =
        (w.exercises.flatMap (fun ex => ex.sets)).map
          (fun s => (s.weight, s.reps, s.rpe, s.set_order))) := by
  unfold create_workout at h
  cases hb : buildExercises db uid db.nextId w.exercises
      { db with
        workouts := db.workouts ++
          [{ id := db.nextId, user_id := uid, date := w.date, notes := w.notes }]
        nextId := db.nextId + 1 } with
  | error e => simp only [hb] at h; simp at h
  | ok p =>
    simp only [hb] at h
    obtain ⟨rfl, rfl⟩ : p = db2 ∧ db.nextId = wid := by
      simpa [Prod.ext_iff] using h
    obtain ⟨h1, h2, h3, hW, hS⟩ :=
      buildExercises_ok_shape db uid db.nextId w.exercises _ _ hb
    exact ⟨rfl, by simpa using h1, by simpa using h2, by simpa using h3,
      by simpa using hW, by simpa using hS⟩

/-- C3: `create_workout` persists, on success, exactly the requested
rows: the one new Workout, one WorkoutExercise per requested exercise
instance in input order (all linked to the new workout), and one Set per
requested set in input order; on any failure the whole unit of work is
rolled back (zero net new rows) and the originating failure is re-raised
unchanged — the masked NotFound of an illegal exercise reference propagates
as that same NotFound, never as a generic system error. -/
theorem C3_create_workout_exact_rows (db : DB) (w : WorkoutCreate)
    (uid : Nat) :
    (∀ db2 wid, create_workout db w uid = (db2, .ok wid) →
      db2.users = db.users ∧
      db2.exercises = db.exercises ∧
      db2.workouts = db.workouts ++
        [{ id := wid, user_id := uid, date := w.date, notes := w.notes }] ∧
      (∃ W, db2.workout_exercises = db.workout_exercises ++ W ∧
        W.map (fun we => we.exercise_id) =
          w.exercises.map (fun ex => ex.exercise_id) ∧
        ∀ we ∈ W, we.workout_id = wid) ∧
      (∃ S, db2.sets = db.sets ++ S ∧
        S.map (fun s => (s.weight, s.reps, s.rpe, s.set_order)) =
          (w.exercises.flatMap (fun ex => ex.sets)).map
            (fun s => (s.weight, s.reps, s.rpe, s.set_order)))) ∧
    (∀ db2 e, create_workout db w uid = (db2, .error e) →
      db2 = db ∧
      ∃ i, e = .exerciseNotFound i ∧
        get_exercise_by_id db i uid = .error (.exerciseNotFound i) ∧
        i ∈ w.exercises.map (fun ex => ex.exercise_id)) := by
  constructor
  · intro db2 wid h
    exact (create_workout_ok db w uid db2 wid h).2
  · intro db2 e h
    have h2 : (create_workout db w uid).2 = .error e := by rw [h]
    have h3 := create_workout_error db w uid e h2
    refine ⟨?_, h3.2⟩
    have h4 : (create_workout db w uid).1 = db2 := by rw [h]
    rw [← h4, h3.1]

/-- Witness for C3 on `exDB`: the spec\x27s 4-rows example succeeds — the
two requested sets and the one link row are appended (4 new rows in all) —
and `badCreate` (illegal reference to user 2\x27s private exercise 11 after a
legal first instance) rolls back to exactly the input store with the
NotFound re-raised. -/
theorem C3_create_workout_exact_rows_witness :
    (create_workout exDB goodCreate 1).1.workouts =
      exDB.workouts ++ [{ id := 23, user_id := 1, date := 5, notes := none }] ∧
    create_workout exDB badCreate 1 = (exDB, .error (.exerciseNotFound 11)) :=
  ⟨((C3_create_workout_exact_rows exDB goodCreate 1).1
      (create_workout exDB goodCreate 1).1 23 rfl).2.2.1,
    by
      have h := (C3_create_workout_exact_rows exDB badCreate 1).2
        (create_workout exDB badCreate 1).1 (.exerciseNotFound 11) rfl
      calc create_workout exDB badCreate 1
          = ((create_workout exDB badCreate 1).1,
              .error (.exerciseNotFound 11)) := rfl
        _ = (exDB, .error (.exerciseNotFound 11)) := by rw [h.1]⟩

/-- C9: Creating a workout with an empty exercise list succeeds for
every actor: `create_workout` with `exercises = []` commits a Workout with
no WorkoutExercise or Set children, and the create path never raises
`EmptyWorkoutException` (it is unreachable: every failure of the rebuild
loop is an `ExerciseNotFoundException`). -/
theorem C9_empty_workout_create (db : DB) (d : Int) (notes : Option String)
    (uid : Nat) :
    create_workout db { date := d, notes := notes, exercises := [] } uid =
      ({ db with
          workouts := db.workouts ++
            [{ id := db.nextId, user_id := uid, date := d, notes := notes }]
          nextId := db.nextId + 1 },
        .ok db.nextId) ∧
    (∀ (w : WorkoutCreate) (e : Exc),
      (create_workout db w uid).2 = .error e → e ≠ .emptyWorkout) := by
  constructor
  · simp [create_workout, buildExercises]
  · intro w e h
    obtain ⟨i, hi, _, _⟩ := (create_workout_error db w uid e h).2
    subst hi
    simp

/-- Witness for C9 on `exDB`: the empty create commits one Workout row and
nothing else, and a concrete failing create raises NotFound, which is not
`EmptyWorkoutException`. -/
theorem C9_empty_workout_create_witness :
    create_workout exDB { date := 5, notes := none, exercises := [] } 1 =
      ({ exDB with
          workouts := exDB.workouts ++
            [{ id := 23, user_id := 1, date := 5, notes := none }]
          nextId := 24 },
        .ok 23) ∧
    Exc.exerciseNotFound 11 ≠ .emptyWorkout :=
  ⟨(C9_empty_workout_create exDB 5 none 1).1,
    (C9_empty_workout_create exDB 5 none 1).2 badCreate
      (.exerciseNotFound 11) rfl⟩



/-- A store whose only workout is dated in the future (date 1 with the clock
at `today = 0`). -/
def futureDB : DB :=
  { users := [u1], exercises := [],
    workouts := [{ id := 2, user_id := 1, date := 1, notes := none }],
    workout_exercises := [], sets := [], nextId := 3 }

/-- The weekly count as the spec words it: workouts in the inclusive window
`[today-7d, today]`.  (Definition follows the spec, for comparison with the
code\x27s `get_weekly_consistency`.) -/
def weeklyWindowCountSpec (db : DB) (today : Int) (user_id : Nat) : Nat :=
  db.workouts.countP (fun w =>
    decide (w.user_id = user_id ∧ today - 7 ≤ w.date ∧ w.date ≤ today))

/-- C6 counterexample: A workout dated after today (date 1, clock at 0)
is counted by `get_weekly_consistency` although it lies outside the claimed
inclusive window `[today-7d, today]`: the code returns 1 where the claimed
window count is 0. -/
theorem C6_weekly_consistency_counterexample :
    get_weekly_consistency futureDB 0 1 = 1 ∧
    weeklyWindowCountSpec futureDB 0 1 = 0 := by
  constructor <;> rfl

/-- Pointwise form of the weekly-filter split: one workout contributes to the
code\x27s filter exactly when it contributes to the spec\x27s inclusive window
or is future-dated. -/
lemma weekly_pointwise (w : WorkoutRow) (today : Int) (uid : Nat) :
    (if (w.user_id == uid && decide (today - 7 ≤ w.date)) = true
      then (1 : Nat) else 0) =
      (if decide (w.user_id = uid ∧ today - 7 ≤ w.date ∧ w.date ≤ today) = true
        then (1 : Nat) else 0) +
      (if decide (w.user_id = uid ∧ today < w.date) = true
        then (1 : Nat) else 0) := by
  by_cases h3 : w.date ≤ today
  · have h3n : ¬(today < w.date) := not_lt.mpr h3
    by_cases h1 : w.user_id = uid <;>
      by_cases h2 : (today - 7 : Int) ≤ w.date <;>
        simp [h1, h2, h3, h3n]
  · have h3y : today < w.date := not_le.mp h3
    have h2y : (today - 7 : Int) ≤ w.date := by omega
    by_cases h1 : w.user_id = uid <;> simp [h1, h2y, h3, h3y]

/-- Splitting the code\x27s weekly filter into the spec\x27s inclusive window
plus the future-dated excess. -/
lemma weekly_filter_split (l : List WorkoutRow) (today : Int) (uid : Nat) :
    (l.filter (fun w => w.user_id == uid && decide (today - 7 ≤ w.date))).length =
      l.countP (fun w =>
        decide (w.user_id = uid ∧ today - 7 ≤ w.date ∧ w.date ≤ today)) +
      l.countP (fun w => decide (w.user_id = uid ∧ today < w.date)) := by
  rw [← List.countP_eq_length_filter]
  induction l with
  | nil => simp
  | cons w rest ih =>
    rw [List.countP_cons, List.countP_cons, List.countP_cons, ih,
      weekly_pointwise w today uid]
    omega

/-- C6 amended: `get_weekly_consistency` counts the actor\x27s workouts
with `date ≥ today - 7` and no upper bound: it is the spec\x27s inclusive
window count plus the count of the actor\x27s workouts dated after today
(the lower boundary is as claimed — exactly 7 days ago counts, 8 days ago
does not — but future-dated workouts are also counted). -/
theorem C6_weekly_consistency_trailing_open (db : DB) (today : Int)
    (uid : Nat) :
    get_weekly_consistency db today uid =
      db.workouts.countP (fun w =>
        decide (w.user_id = uid ∧ today - 7 ≤ w.date)) ∧
    get_weekly_consistency db today uid =
      weeklyWindowCountSpec db today uid +
        db.workouts.countP (fun w =>
          decide (w.user_id = uid ∧ today < w.date)) := by
  constructor
  · unfold get_weekly_consistency
    rw [List.countP_eq_length_filter]
    congr 1
    apply List.filter_congr
    intro w _
    by_cases h1 : w.user_id = uid <;> by_cases h2 : (today - 7 : Int) ≤ w.date <;>
      simp [h1, h2]
  · unfold get_weekly_consistency weeklyWindowCountSpec
    exact weekly_filter_split db.workouts today uid



/-- Two sessions of user 1 on exercise 10: date 0 with top weight 80, date 5
with top weight 85. -/
def progDB : DB :=
  { users := [u1], exercises := [exBench],
    workouts := [{ id := 2, user_id := 1, date := 0, notes := none },
                 { id := 4, user_id := 1, date := 5, notes := none }],
    workout_exercises := [{ id := 3, workout_id := 2, exercise_id := 10 },
                          { id := 5, workout_id := 4, exercise_id := 10 }],
    sets := [{ id := 6, workout_exercise_id := 3, set_order := 1, weight := 80,
               reps := 5, rpe := none },
             { id := 7, workout_exercise_id := 5, set_order := 1, weight := 85,
               reps := 5, rpe := none }],
    nextId := 8 }

/-- C2 counterexample: With two qualifying sessions (dates 0 and 5) and
`limit = 1`, the code returns the oldest session `[(0, 80)]`, not the claimed
most-recent one `[(5, 85)]`: the `LIMIT` is applied to the ascending order,
selecting a leading window. -/
theorem C2_progress_counterexample :
    get_exercise_progress progDB 1 10 1 = [(0, 80)] ∧
    get_exercise_progress progDB 1 10 1 ≠ [(5, 85)] := by
  constructor
  · rfl
  · decide

instance : IsTotal (Int × Rat) dateLe :=
  ⟨fun a b => Int.le_total a.1 b.1⟩

instance : IsTrans (Int × Rat) dateLe :=
  ⟨fun _ _ _ h1 h2 => le_trans h1 h2⟩

/-- C2 amended: `get_exercise_progress` returns the per-workout
`(date, max weight)` rows ordered by date ascending, truncated to the first
`limit` rows of that ascending order — a leading window (the `limit` oldest
sessions), not the most-recent ones. -/
theorem C2_progress_ascending_leading_window (db : DB) (uid eid L : Nat) :
    List.Sorted dateLe (get_exercise_progress db uid eid L) ∧
    get_exercise_progress db uid eid L = (progressRows db uid eid).take L ∧
    (∀ p ∈ get_exercise_progress db uid eid L, p ∈ progressRows db uid eid) := by
  refine ⟨?_, rfl, ?_⟩
  · exact List.Pairwise.sublist (List.take_sublist _ _)
      (List.sorted_insertionSort dateLe _)
  · intro p hp
    exact List.mem_of_mem_take hp

/-- Witness for C2 (amended) on `progDB`: the full series is the spec\x27s
example `[(0, 80), (5, 85)]`, sorted ascending, and the truncated result is
a sub-collection of the full series. -/
theorem C2_progress_ascending_leading_window_witness :
    List.Sorted dateLe (get_exercise_progress progDB 1 10 10) ∧
    get_exercise_progress progDB 1 10 10 = [(0, 80), (5, 85)] ∧
    (0, 80) ∈ progressRows progDB 1 10 :=
  ⟨(C2_progress_ascending_leading_window progDB 1 10 10).1,
    by rfl,
    (C2_progress_ascending_leading_window progDB 1 10 1).2.2 (0, 80)
      (by decide)⟩

/-- A fresh-signup payload whose `auth_id` collides with `u1`. -/
def dupSignup : UserCreate :=
  { email := "c@x", username := "c", auth_id := "auth1" }

/-- C8 counterexample: Processing `user.created` for an already-known
external identity is not a silent no-op: `create_user` on a store already
holding `auth_id = "auth1"` leaves the store unchanged but raises the
Conflict `UserAlreadyExistsException("Auth ID auth1")`, which the claim says
must not surface. -/
theorem C8_create_user_counterexample :
    create_user exDB dupSignup =
      (exDB, .error (.userAlreadyExists "Auth ID auth1")) := by
  rfl

/-- C8 amended: `create_user` with an already-existing `auth_id` leaves
the store unchanged but raises `UserAlreadyExistsException` naming the Auth
ID (a Conflict, not a silent no-op); when no existing user matches the new
auth_id, email or username, a new User row is created. -/
theorem C8_create_user_duplicate_conflict (db : DB) (u : UserCreate) :
    ((∃ x ∈ db.users, x.auth_id = u.auth_id) →
      create_user db u =
        (db, .error (.userAlreadyExists ("Auth ID " ++ u.auth_id)))) ∧
    ((∀ x ∈ db.users,
        x.auth_id ≠ u.auth_id ∧ x.email ≠ u.email ∧
          x.username ≠ some u.username) →
      create_user db u =
        ({ db with
            users := db.users ++
              [{ id := db.nextId, email := u.email,
                 username := some u.username, role := Role.user,
                 auth_id := u.auth_id, last_login_at := none }]
            nextId := db.nextId + 1 },
          .ok { id := db.nextId, email := u.email,
                username := some u.username, role := Role.user,
                auth_id := u.auth_id, last_login_at := none })) := by
  constructor
  · rintro ⟨x, hx, hax⟩
    unfold create_user
    rw [if_pos (List.any_eq_true.mpr ⟨x, hx, by simp [hax]⟩)]
  · intro hall
    unfold create_user
    rw [if_neg, if_neg, if_neg]
    · simp only [List.any_eq_true, not_exists]
      intro x
      simp only [not_and]
      intro hx
      simpa using (hall x hx).2.2
    · simp only [List.any_eq_true, not_exists]
      intro x
      simp only [not_and]
      intro hx
      simpa using (hall x hx).2.1
    · simp only [List.any_eq_true, not_exists]
      intro x
      simp only [not_and]
      intro hx
      simpa using (hall x hx).1

/-- Witness for C8 (amended): the duplicate `auth_id` signup on `exDB`
conflicts with the store unchanged, and a fresh signup inserts the new
row. -/
theorem C8_create_user_duplicate_conflict_witness :
    create_user exDB dupSignup =
      (exDB, .error (.userAlreadyExists "Auth ID auth1")) ∧
    create_user exDB { email := "c@x", username := "c", auth_id := "auth9" } =
      ({ exDB with
          users := exDB.users ++
            [{ id := 23, email := "c@x", username := some "c",
               role := Role.user, auth_id := "auth9", last_login_at := none }]
          nextId := 24 },
        .ok { id := 23, email := "c@x", username := some "c",
              role := Role.user, auth_id := "auth9", last_login_at := none }) :=
  ⟨(C8_create_user_duplicate_conflict exDB dupSignup).1
      ⟨u1, by decide, rfl⟩,
    (C8_create_user_duplicate_conflict exDB
        { email := "c@x", username := "c", auth_id := "auth9" }).2
      (by decide)⟩



/-- The `setattr` never touches the protected columns when the key is not one of
them. -/
lemma setUserField_protected (u : UserRow) (key : String) (v : FieldVal)
    (h1 : key ≠ "id") (h2 : key ≠ "auth_id") (h3 : key ≠ "role")
    (h4 : key ≠ "email") :
    (setUserField u key v).id = u.id ∧
    (setUserField u key v).auth_id = u.auth_id ∧
    (setUserField u key v).role = u.role ∧
    (setUserField u key v).email = u.email := by
  unfold setUserField
  split <;> simp_all

/-- The `setattr` with a key other than `username` leaves `username`
unchanged. -/
lemma setUserField_username (u : UserRow) (key : String) (v : FieldVal)
    (h : key ≠ "username") : (setUserField u key v).username = u.username := by
  unfold setUserField
  split <;> simp_all

/-- The `setattr` with a key other than `last_login_at` leaves `last_login_at`
unchanged. -/
lemma setUserField_last_login (u : UserRow) (key : String) (v : FieldVal)
    (h : key ≠ "last_login_at") :
    (setUserField u key v).last_login_at = u.last_login_at := by
  unfold setUserField
  split <;> simp_all

/-- The `update_user` loop never modifies the protected columns, whatever
the patch contains. -/
lemma applyUserUpdates_protected (items : List (String × FieldVal)) :
    ∀ u : UserRow,
      (applyUserUpdates u items).id = u.id ∧
      (applyUserUpdates u items).auth_id = u.auth_id ∧
      (applyUserUpdates u items).role = u.role ∧
      (applyUserUpdates u items).email = u.email := by
  induction items with
  | nil => intro u; exact ⟨rfl, rfl, rfl, rfl⟩
  | cons kv rest ih =>
    intro u
    obtain ⟨key, v⟩ := kv
    rw [applyUserUpdates]
    split
    · exact ih u
    · rename_i hcond
      simp only [Bool.or_eq_true, beq_iff_eq, not_or] at hcond
      obtain ⟨⟨⟨hk1, hk2⟩, hk3⟩, hk4⟩ := hcond
      obtain ⟨p1, p2, p3, p4⟩ := setUserField_protected u key v hk1 hk2 hk3 hk4
      obtain ⟨q1, q2, q3, q4⟩ := ih (setUserField u key v)
      exact ⟨q1.trans p1, q2.trans p2, q3.trans p3, q4.trans p4⟩

/-- If the patch has no `username` item the loop leaves `username`
unchanged. -/
lemma applyUserUpdates_username (items : List (String × FieldVal))
    (h : ∀ kv ∈ items, kv.1 ≠ "username") :
    ∀ u : UserRow, (applyUserUpdates u items).username = u.username := by
  induction items with
  | nil => intro u; rfl
  | cons kv rest ih =>
    intro u
    obtain ⟨key, v⟩ := kv
    rw [applyUserUpdates]
    have hrest : ∀ kv ∈ rest, kv.1 ≠ "username" := by
      intro x hx; exact h x (List.mem_cons_of_mem _ hx)
    split
    · exact ih hrest u
    · exact (ih hrest _).trans
        (setUserField_username u key v (h (key, v) (List.mem_cons_self _ _)))

/-- If the patch has no `last_login_at` item the loop leaves `last_login_at`
unchanged. -/
lemma applyUserUpdates_last_login (items : List (String × FieldVal))
    (h : ∀ kv ∈ items, kv.1 ≠ "last_login_at") :
    ∀ u : UserRow,
      (applyUserUpdates u items).last_login_at = u.last_login_at := by
  induction items with
  | nil => intro u; rfl
  | cons kv rest ih =>
    intro u
    obtain ⟨key, v⟩ := kv
    rw [applyUserUpdates]
    have hrest : ∀ kv ∈ rest, kv.1 ≠ "last_login_at" := by
      intro x hx; exact h x (List.mem_cons_of_mem _ hx)
    split
    · exact ih hrest u
    · exact (ih hrest _).trans
        (setUserField_last_login u key v (h (key, v) (List.mem_cons_self _ _)))

/-- C10: `update_user` never modifies `id`, `auth_id`, `role` or `email`
of any stored user — even when the patch explicitly supplies values for
them; rows other than the target are untouched, and a field whose key the
patch does not mention keeps its previous value.  (`user_id` columns are the
primary key, hence the `Nodup` hypothesis.) -/
theorem C10_update_user_protected_fields (db : DB) (uid : Nat)
    (items : List (String × FieldVal))
    (hid : (db.users.map (fun u => u.id)).Nodup) :
    ((update_user db uid items).1.users.map
        (fun u => (u.id, u.auth_id, u.role, u.email)) =
      db.users.map (fun u => (u.id, u.auth_id, u.role, u.email))) ∧
    (∀ x ∈ db.users, x.id ≠ uid →
      x ∈ (update_user db uid items).1.users) ∧
    ((∀ kv ∈ items, kv.1 ≠ "username") →
      (update_user db uid items).1.users.map (fun u => u.username) =
        db.users.map (fun u => u.username)) ∧
    ((∀ kv ∈ items, kv.1 ≠ "last_login_at") →
      (update_user db uid items).1.users.map (fun u => u.last_login_at) =
        db.users.map (fun u => u.last_login_at)) := by
  unfold update_user
  split
  · exact ⟨rfl, fun x hx _ => hx, fun _ => rfl, fun _ => rfl⟩
  · rename_i user hf
    have huser_mem : user ∈ db.users := List.mem_of_find?_eq_some hf
    have huser_id : user.id = uid := by
      have := List.find?_some hf
      simpa using this
    split
    · exact ⟨rfl, fun x hx _ => hx, fun _ => rfl, fun _ => rfl⟩
    · have key_case : ∀ x ∈ db.users, (x.id == uid) = true → x = user := by
        intro x hx hxe
        apply List.inj_on_of_nodup_map hid hx huser_mem
        rw [huser_id]
        simpa using hxe
      refine ⟨?_, ?_, ?_, ?_⟩
      · rw [List.map_map]
        apply List.map_congr_left
        intro x hx
        simp only [Function.comp_apply]
        by_cases hxe : (x.id == uid) = true
        · obtain ⟨p1, p2, p3, p4⟩ := applyUserUpdates_protected items user
          rw [key_case x hx hxe]
          simp [huser_id, p1, p2, p3, p4]
        · simp [hxe]
      · intro x hx hne
        apply List.mem_map.mpr
        refine ⟨x, hx, ?_⟩
        simp [hne]
      · intro hnames
        rw [List.map_map]
        apply List.map_congr_left
        intro x hx
        simp only [Function.comp_apply]
        by_cases hxe : (x.id == uid) = true
        · rw [key_case x hx hxe]
          simp [huser_id, applyUserUpdates_username items hnames user]
        · simp [hxe]
      · intro hnames
        rw [List.map_map]
        apply List.map_congr_left
        intro x hx
        simp only [Function.comp_apply]
        by_cases hxe : (x.id == uid) = true
        · rw [key_case x hx hxe]
          simp [huser_id, applyUserUpdates_last_login items hnames user]
        · simp [hxe]

/-- A patch that explicitly tries to overwrite every protected field of user
1 (plus a legitimate `last_login_at` update). -/
def hostilePatch : List (String × FieldVal) :=
  [("id", .nat 99), ("auth_id", .str "stolen"), ("role", .role .admin),
   ("email", .str "evil@x"), ("last_login_at", .time (some 5))]

/-- Witness for C10 on `exDB`: even `hostilePatch` leaves every user\x27s
id/auth_id/role/email projection intact, user 2\x27s row untouched, and the
usernames unchanged (no `username` key in the patch). -/
theorem C10_update_user_protected_fields_witness :
    (update_user exDB 1 hostilePatch).1.users.map
        (fun u => (u.id, u.auth_id, u.role, u.email)) =
      exDB.users.map (fun u => (u.id, u.auth_id, u.role, u.email)) ∧
    u2 ∈ (update_user exDB 1 hostilePatch).1.users ∧
    (update_user exDB 1 hostilePatch).1.users.map (fun u => u.username) =
      exDB.users.map (fun u => u.username) :=
  ⟨(C10_update_user_protected_fields exDB 1 hostilePatch (by decide)).1,
    (C10_update_user_protected_fields exDB 1 hostilePatch (by decide)).2.1 u2
      (by decide) (by decide),
    (C10_update_user_protected_fields exDB 1 hostilePatch (by decide)).2.2.1
      (by decide)⟩



/-- The `maxWeight` is `none` exactly on the empty group (SQL `MAX` of no
rows is `NULL`). -/
lemma maxWeight_eq_none_iff (l : List Rat) : maxWeight l = none ↔ l = [] := by
  cases l with
  | nil => simp [maxWeight]
  | cons x xs =>
    rw [maxWeight]
    cases maxWeight xs <;> simp

/-- A computed `MAX` is one of the aggregated values. -/
lemma maxWeight_mem (l : List Rat) (m : Rat) (h : maxWeight l = some m) :
    m ∈ l := by
  induction l generalizing m with
  | nil => simp [maxWeight] at h
  | cons x xs ih =>
    rw [maxWeight] at h
    cases hm : maxWeight xs with
    | none =>
      rw [hm] at h
      injection h with h2
      simp [← h2]
    | some m2 =>
      rw [hm] at h
      injection h with h2
      by_cases h3 : x ≤ m2
      · rw [← h2, if_pos h3]
        exact List.mem_cons_of_mem x (ih m2 hm)
      · rw [← h2, if_neg h3]
        exact List.mem_cons_self x xs
/-- A computed `MAX` bounds every aggregated value. -/
lemma maxWeight_is_ub (l : List Rat) (m : Rat) (h : maxWeight l = some m) :
    ∀ x ∈ l, x ≤ m := by
  induction l generalizing m with
  | nil => simp
  | cons x xs ih =>
    rw [maxWeight] at h
    cases hm : maxWeight xs with
    | none =>
      rw [hm] at h
      injection h with h2
      intro y hy
      rcases List.mem_cons.mp hy with rfl | hy2
      · exact le_of_eq h2
      · rw [maxWeight_eq_none_iff] at hm
        subst hm
        simp at hy2
    | some m2 =>
      rw [hm] at h
      injection h with h2
      intro y hy
      rcases List.mem_cons.mp hy with rfl | hy2
      · rw [← h2]
        by_cases h3 : y ≤ m2
        · rw [if_pos h3]; exact h3
        · rw [if_neg h3]
      · rw [← h2]
        by_cases h3 : x ≤ m2
        · rw [if_pos h3]; exact ih m2 hm y hy2
        · rw [if_neg h3]
          exact le_trans (ih m2 hm y hy2) (le_of_not_le h3)

/-- The relational meaning of the personal-best `WHERE` clause: `s` has a
parent `WorkoutExercise` for the given exercise whose parent `Workout`
belongs to the given user. -/
def QualifiesPB (db : DB) (user_id exercise_id : Nat) (s : SetRow) : Prop :=
  s ∈ db.sets ∧
    ∃ we ∈ db.workout_exercises,
      s.workout_exercise_id = we.id ∧ we.exercise_id = exercise_id ∧
        ∃ w ∈ db.workouts, we.workout_id = w.id ∧ w.user_id = user_id

/-- With unique `WorkoutExercise` and `Workout` primary keys, the code\x27s
`find?`-based join test agrees with the relational join condition. -/
lemma pbFilter_iff (db : DB) (uid eid : Nat)
    (hwe : (db.workout_exercises.map (fun we => we.id)).Nodup)
    (hw : (db.workouts.map (fun w => w.id)).Nodup) (s : SetRow) :
    pbFilter db uid eid s = true ↔
      ∃ we ∈ db.workout_exercises,
        s.workout_exercise_id = we.id ∧ we.exercise_id = eid ∧
          ∃ w ∈ db.workouts, we.workout_id = w.id ∧ w.user_id = uid := by
  unfold pbFilter
  constructor
  · intro h
    cases hfwe : db.workout_exercises.find?
        (fun we => we.id == s.workout_exercise_id) with
    | none => rw [hfwe] at h; cases h
    | some we =>
      rw [hfwe] at h
      have hwe_mem : we ∈ db.workout_exercises :=
        List.mem_of_find?_eq_some hfwe
      have hwe_id : we.id = s.workout_exercise_id := by
        have := List.find?_some hfwe
        simpa using this
      rw [Bool.and_eq_true] at h
      obtain ⟨h1, h2⟩ := h
      cases hfw : db.workouts.find? (fun w => w.id == we.workout_id) with
      | none => rw [hfw] at h2; cases h2
      | some w =>
        rw [hfw] at h2
        refine ⟨we, hwe_mem, hwe_id.symm, by simpa using h1,
          w, List.mem_of_find?_eq_some hfw, ?_, by simpa using h2⟩
        have := List.find?_some hfw
        simpa using (Nat.eq_of_beq_eq_true (by simpa using this)).symm
  · rintro ⟨we, hwe_mem, hsid, heid, w, hw_mem, hwid, huid⟩
    have hsome : (db.workout_exercises.find?
        (fun x => x.id == s.workout_exercise_id)).isSome := by
      rw [List.find?_isSome]
      exact ⟨we, hwe_mem, by simp [hsid]⟩
    obtain ⟨we2, hfwe⟩ := Option.isSome_iff_exists.mp hsome
    have hwe2_mem : we2 ∈ db.workout_exercises :=
      List.mem_of_find?_eq_some hfwe
    have hwe2_id : we2.id = s.workout_exercise_id := by
      have := List.find?_some hfwe
      simpa using this
    have : we2 = we :=
      List.inj_on_of_nodup_map hwe hwe2_mem hwe_mem (by rw [hwe2_id, hsid])
    subst this
    rw [hfwe, Bool.and_eq_true]
    refine ⟨by simp [heid], ?_⟩
    have hsomew : (db.workouts.find? (fun x => x.id == we2.workout_id)).isSome := by
      rw [List.find?_isSome]
      exact ⟨w, hw_mem, by simp [hwid]⟩
    obtain ⟨w2, hfw⟩ := Option.isSome_iff_exists.mp hsomew
    have hw2_mem : w2 ∈ db.workouts := List.mem_of_find?_eq_some hfw
    have hw2_id : w2.id = we2.workout_id := by
      have := List.find?_some hfw
      simpa using this
    have : w2 = w :=
      List.inj_on_of_nodup_map hw hw2_mem hw_mem (by rw [hw2_id, hwid])
    subst this
    rw [hfw]
    simp [huid]

/-- C7: With unique `WorkoutExercise`/`Workout` primary keys,
`get_personal_best` returns `none` — never an error — exactly when the
actor has no Set for the exercise, and otherwise returns `some m` where `m`
is the weight of one of the actor\x27s qualifying Sets and bounds the weight
of every qualifying Set; Sets of other users are never included (a
qualifying Set\x27s workout belongs to the actor by definition of
`QualifiesPB`). -/
theorem C7_personal_best_max_of_own_sets (db : DB) (uid eid : Nat)
    (hwe : (db.workout_exercises.map (fun we => we.id)).Nodup)
    (hw : (db.workouts.map (fun w => w.id)).Nodup) :
    (get_personal_best db uid eid = none ↔
      ∀ s, ¬ QualifiesPB db uid eid s) ∧
    (∀ m, get_personal_best db uid eid = some m →
      (∃ s, QualifiesPB db uid eid s ∧ s.weight = m) ∧
      (∀ s, QualifiesPB db uid eid s → s.weight ≤ m)) := by
  constructor
  · unfold get_personal_best
    rw [maxWeight_eq_none_iff, List.map_eq_nil_iff, List.filter_eq_nil_iff]
    constructor
    · intro h s hq
      obtain ⟨hmem, hjoin⟩ := hq
      exact h s hmem ((pbFilter_iff db uid eid hwe hw s).mpr hjoin)
    · intro h s hmem hfil
      exact h s ⟨hmem, (pbFilter_iff db uid eid hwe hw s).mp hfil⟩
  · intro m hm
    unfold get_personal_best at hm
    constructor
    · have := maxWeight_mem _ m hm
      rw [List.mem_map] at this
      obtain ⟨s, hs_mem, hs_w⟩ := this
      rw [List.mem_filter] at hs_mem
      exact ⟨s, ⟨hs_mem.1, (pbFilter_iff db uid eid hwe hw s).mp hs_mem.2⟩,
        hs_w⟩
    · intro s hq
      apply maxWeight_is_ub _ m hm
      rw [List.mem_map]
      refine ⟨s, ?_, rfl⟩
      rw [List.mem_filter]
      exact ⟨hq.1, (pbFilter_iff db uid eid hwe hw s).mpr hq.2⟩

/-- The weight 92.5 (= 185/2) as an explicit reduced fraction; the
scientific-literal `OfScientific` instance for `Rat` does not reduce in the
kernel, so the example data uses this form. -/
def w925 : Rat := ⟨185, 2, by decide, by decide⟩

/-- The spec\x27s personal-best example: one session of user 1 on exercise 10
with set weights 80, 85 and 92.5. -/
def pbDB : DB :=
  { users := [u1], exercises := [exBench],
    workouts := [{ id := 2, user_id := 1, date := 0, notes := none }],
    workout_exercises := [{ id := 3, workout_id := 2, exercise_id := 10 }],
    sets := [{ id := 4, workout_exercise_id := 3, set_order := 1, weight := 80,
               reps := 5, rpe := none },
             { id := 5, workout_exercise_id := 3, set_order := 2, weight := 85,
               reps := 3, rpe := none },
             { id := 6, workout_exercise_id := 3, set_order := 3,
               weight := w925, reps := 1, rpe := none }],
    nextId := 7 }

/-- Witness for C7 on `pbDB`: the personal best over weights 80, 85 and
92.5 is 92.5, achieved by a qualifying set of the actor; an
exercise with no history yields `none` (no error), and no set qualifies for
it. -/
theorem C7_personal_best_max_of_own_sets_witness :
    get_personal_best pbDB 1 10 = some w925 ∧
    (∃ s, QualifiesPB pbDB 1 10 s ∧ s.weight = w925) ∧
    get_personal_best pbDB 1 99 = none ∧
    ¬ QualifiesPB pbDB 1 99
      { id := 4, workout_exercise_id := 3, set_order := 1, weight := 80,
        reps := 5, rpe := none } :=
  ⟨by decide,
    ((C7_personal_best_max_of_own_sets pbDB 1 10 (by decide) (by decide)).2
      w925 (by decide)).1,
    by decide,
    ((C7_personal_best_max_of_own_sets pbDB 1 99 (by decide) (by decide)).1.mp
      (by decide))
      { id := 4, workout_exercise_id := 3, set_order := 1, weight := 80,
        reps := 5, rpe := none }⟩

end Kilog
